import Mathlib

/-!
Shallow embedding of the LifeLens frontend core: the task-status polling
logic (`task-status-poller.tsx`, `useMedia.ts`), the chat store
(`chatStore.ts`), the chat send-message handler (`pages/Chat.tsx`), and the
API client (`lib/api.ts`, including its SSE line parser).

JavaScript strings are modelled by `String`; JSON object values that the
code never inspects (tool-call argument records) are modelled opaquely by
their serialized text.  JS truthiness on optional strings (`x || d`,
`if (x)`) is modelled explicitly: `none` and the empty string are falsy.
-/

namespace LifeLens

/-- JSON values the frontend carries around without inspecting
(`args: Record<string, unknown>`), modelled opaquely as serialized text. -/
abbrev JsonValue := String

/-- JS `x || d` for an optional string `x`: `undefined`/absent and the empty
string are falsy, so both fall back to `d`. -/
def jsOrElse (x : Option String) (d : String) : String :=
  match x with
  | some s => if s = "" then d else s
  | none => d

/-- Whitespace predicate used to model JS `String.prototype.trim` (the
inputs of interest only involve ASCII whitespace). -/
def jsWS (c : Char) : Bool :=
  c = ' ' || c = '\t' || c = '\n' || c = '\r'

/-- Trim on character lists: drop whitespace from both ends (JS `trim`). -/
def jsTrimL (l : List Char) : List Char :=
  ((l.dropWhile jsWS).reverse.dropWhile jsWS).reverse

/-- JS `String.prototype.trim` on strings. -/
def jsTrim (s : String) : String :=
  ⟨jsTrimL s.data⟩

/-- JS `a.startsWith(p)` where the first argument is the checked prefix. -/
def startsWithL : List Char → List Char → Bool
  | [], _ => true
  | _ :: _, [] => false
  | p :: ps, c :: cs => p = c && startsWithL ps cs

/-- Concatenation of a list of strings, `c1 ++ c2 ++ ... ++ cn`. -/
def concatAll : List String → String
  | [] => ""
  | c :: cs => c ++ concatAll cs

/-- Concatenation of a list of character chunks into a single chunk. -/
def concatChunks : List (List Char) → List Char
  | [] => []
  | c :: cs => c ++ concatChunks cs

/-! ## Data model (`api-types.ts`, `chatStore.ts`) -/

/-- One recorded tool invocation on a message
(`function_calls: Array<{name, args}>`). -/
structure FunctionCall where
  name : String
  args : JsonValue
deriving DecidableEq

/-- `Message` from `chatStore.ts`: role is `"user"` or `"assistant"`;
`function_calls` is an optional field (absent modelled as `none`). -/
structure Message where
  id : Int
  role : String
  content : String
  created_at : String
  function_calls : Option (List FunctionCall) := none
deriving DecidableEq

/-- `Conversation` from `chatStore.ts`. -/
structure Conversation where
  id : String
  title : Option String := none
  created_at : String := ""
  updated_at : Option String := none
deriving DecidableEq

/-- The zustand chat store state (`chatStore.ts`). -/
structure ChatState where
  currentConversation : Option Conversation
  messages : List Message
  isStreaming : Bool
deriving DecidableEq

/-! ## Chat store actions (`chatStore.ts`) -/

/-- `setCurrentConversation`: selects a conversation (or `null`) and resets
the message list to `[]`. -/
def setCurrentConversation (c : Option Conversation) (s : ChatState) : ChatState :=
  { s with currentConversation := c, messages := [] }

/-- `setMessages`: replaces the whole message list. -/
def setMessages (ms : List Message) (s : ChatState) : ChatState :=
  { s with messages := ms }

/-- `addMessage`: `messages: [...state.messages, message]`. -/
def addMessage (m : Message) (s : ChatState) : ChatState :=
  { s with messages := s.messages ++ [m] }

/-- `updateLastMessage`: maps over the messages, replacing `content` at
index `length - 1` only. -/
def updateLastMessage (content : String) (s : ChatState) : ChatState :=
  { s with
    messages := s.messages.mapIdx fun idx msg =>
      if idx = s.messages.length - 1 then { msg with content := content } else msg }

/-- `addFunctionCallToLastMessage`: maps over the messages, appending
`{name, args}` to `function_calls` (defaulting the absent field to `[]`)
at index `length - 1` only. -/
def addFunctionCallToLastMessage (name : String) (args : JsonValue) (s : ChatState) : ChatState :=
  { s with
    messages := s.messages.mapIdx fun idx msg =>
      if idx = s.messages.length - 1 then
        { msg with function_calls := some (msg.function_calls.getD [] ++ [⟨name, args⟩]) }
      else msg }

/-- `setStreaming`. -/
def setStreaming (b : Bool) (s : ChatState) : ChatState :=
  { s with isStreaming := b }

/-! ## Task status (`task-status-poller.tsx`, `useMedia.ts`) -/

/-- The four display statuses the poller reports
(`"pending" | "processing" | "done" | "failed"`). -/
inductive DisplayStatus
  | pending
  | processing
  | done
  | failed
deriving DecidableEq

/-- `TaskStatus` from `api-types.ts`.  The `status` field is modelled as a
runtime string: the TypeScript literal-union annotation is erased at
runtime and the value comes from server JSON, which is exactly why the
code has `default`/unknown branches. -/
structure TaskStatus where
  task_id : String
  status : String
  result : Option String := none
deriving DecidableEq

/-- The status mapping inside `checkTaskStatus` (`task-status-poller.tsx`):
a `switch` on the backend status with `case "processing":` falling through
to `default:`, both yielding `processing`. -/
def checkTaskStatus (status : String) : DisplayStatus :=
  if status = "completed" then .done
  else if status = "failed" then .failed
  else if status = "pending" then .pending
  else .processing

/-- The `refetchInterval` callback of `useTaskStatus` (`useMedia.ts`) as a
function of the currently fetched data; the JS return value `false` is
modelled as `none`, a millisecond interval `n` as `some n`. -/
def refetchInterval (data : Option TaskStatus) : Option Nat :=
  match data with
  | none => none
  | some d =>
    if d.status = "completed" || d.status = "failed" then none
    else if d.status = "pending" || d.status = "processing" then some 2000
    else none

/-! ## Chat stream events and the `Chat.sendMessage` handler (`pages/Chat.tsx`) -/

/-- The event record delivered by `api.sendMessage` (`lib/api.ts`):
`{type: "function_call" | "text" | "done" | "error", name?, args?,
content?, message?}`.  `type` is a runtime string. -/
structure ChatEvent where
  type : String
  name : Option String := none
  args : Option JsonValue := none
  content : Option String := none
  message : Option String := none
deriving DecidableEq

/-- A `"text"` event with the given optional content. -/
def textEvent (content : Option String) : ChatEvent :=
  { type := "text", content := content }

/-- The streaming context of one `Chat.sendMessage` call: the local
accumulator `fullContent` together with the chat store state. -/
structure StreamCtx where
  fullContent : String
  state : ChatState
deriving DecidableEq

/-- The `onEvent` callback inside `Chat.sendMessage` (`pages/Chat.tsx`):
a `switch` on `event.type`.
`"text"`: `if (event.content)` (truthy, so absent and `""` are skipped),
then `fullContent += event.content; updateLastMessage(fullContent)`.
`"function_call"`: `if (event.name && event.args)` (an empty name is falsy;
`args` is an object, hence truthy whenever present), then
`addFunctionCallToLastMessage(event.name, event.args)`.
`"done"`: `setStreaming(false)`.
`"error"`: `updateLastMessage(event.message || generic)`,
`setStreaming(false)`.  Any other type hits no case and does nothing. -/
def onEvent (e : ChatEvent) (ctx : StreamCtx) : StreamCtx :=
  if e.type = "text" then
    match e.content with
    | some c =>
      if c = "" then ctx
      else
        let fc := ctx.fullContent ++ c
        { fullContent := fc, state := updateLastMessage fc ctx.state }
    | none => ctx
  else if e.type = "function_call" then
    match e.name, e.args with
    | some n, some a =>
      if n = "" then ctx
      else { ctx with state := addFunctionCallToLastMessage n a ctx.state }
    | _, _ => ctx
  else if e.type = "done" then
    { ctx with state := setStreaming false ctx.state }
  else if e.type = "error" then
    { ctx with
      state := setStreaming false
        (updateLastMessage
          (jsOrElse e.message "Sorry, I encountered an error. Please try again.")
          ctx.state) }
  else ctx

/-- Processing a sequence of stream events in order. -/
def processEvents (es : List ChatEvent) (ctx : StreamCtx) : StreamCtx :=
  es.foldl (fun c e => onEvent e c) ctx

/-- The `catch` branch of `Chat.sendMessage`: on any exception from the
request, `updateLastMessage(generic)` then `setStreaming(false)`. -/
def sendMessageCatch (s : ChatState) : ChatState :=
  setStreaming false
    (updateLastMessage "Sorry, I encountered an error. Please try again." s)

/-- The synchronous prefix of `Chat.sendMessage` (`pages/Chat.tsx`).
Guard: `if (!input.trim() || !currentConversation || isStreaming) return;`.
Otherwise it appends the user message, sets streaming, appends the empty
in-flight assistant message, and issues the request.  `now`/`iso` stand for
`Date.now()` / `new Date().toISOString()`; the result carries the state
after the synchronous prefix plus the request parameters
`(conversation id, message content)`, and is `none` when the guard trips
(no request issued, no state modified). -/
def sendMessage (input : String) (now : Int) (iso : String) (s : ChatState) :
    Option (ChatState × String × String) :=
  if jsTrim input = "" then none
  else
    match s.currentConversation with
    | none => none
    | some conv =>
      if s.isStreaming then none
      else
        let userMessage : Message :=
          { id := now, role := "user", content := input, created_at := iso }
        let s1 := addMessage userMessage s
        let s2 := setStreaming true s1
        let assistantMessage : Message :=
          { id := now + 1, role := "assistant", content := "", created_at := iso }
        let s3 := addMessage assistantMessage s2
        some (s3, conv.id, input)

/-! ## API client (`lib/api.ts`) -/

/-- The error thrown by the API client (`class ApiError`). -/
structure ApiError where
  status : Nat
  message : String
deriving DecidableEq

/-- The persisted auth store state (`authStore.ts`). -/
structure AuthState where
  token : Option String
  isAuthenticated : Bool
deriving DecidableEq

/-- `logout` from `authStore.ts`: clears the token. -/
def logout (_a : AuthState) : AuthState :=
  { token := none, isAuthenticated := false }

/-- An HTTP response as `api.request` observes it: the numeric status and
the `detail` field of the JSON body.  `detail = none` covers both an
unparseable body (the `.catch` handler substitutes
`{detail: "An error occurred"}`, which `error.detail || fallback` then
passes through unchanged — the same fallback text) and a parsed body with
no `detail` field. -/
structure HttpResponse where
  status : Nat
  detail : Option String := none
deriving DecidableEq

/-- `Response.ok` per the fetch specification: status in 200..299. -/
def respOk (status : Nat) : Bool :=
  200 ≤ status && status < 300

/-- `api.request` (`lib/api.ts`) as a function of the auth state and the
received response.  On status 401: `logout()` and throw `ApiError(401,
"Unauthorized")` (the `window.location` redirect is a browser side effect
outside the model).  On any other non-ok status: throw `ApiError(status,
error.detail || "An error occurred")`.  Otherwise return the response. -/
def request (auth : AuthState) (resp : HttpResponse) :
    AuthState × Except ApiError HttpResponse :=
  if resp.status = 401 then
    (logout auth, Except.error ⟨401, "Unauthorized"⟩)
  else if !(respOk resp.status) then
    (auth, Except.error ⟨resp.status, jsOrElse resp.detail "An error occurred"⟩)
  else
    (auth, Except.ok resp)

/-! ## SSE stream parsing in `api.sendMessage` (`lib/api.ts`)

The read loop keeps a string `buffer`; each received chunk is appended,
the buffer is `split("\n")`, the last (possibly incomplete) segment is put
back into the buffer, and every complete line is handled: `trim()` it,
require the `"data: "` marker, `slice(6).trim()` the payload, skip the
`"[DONE]"` sentinel, and `JSON.parse` it, delivering the parsed event to
`onEvent` and skipping payloads that fail to parse.  Streams are modelled
as lists of characters (the `TextDecoder` with `stream: true` handles
byte-level chunk boundaries before this logic runs). -/

/-- JS `s.split("\n")` on character lists: the list of newline-separated
segments; always nonempty, the last segment is the part after the final
newline. -/
def splitNl : List Char → List (List Char)
  | [] => [[]]
  | c :: cs =>
    if c = '\n' then [] :: splitNl cs
    else
      match splitNl cs with
      | [] => [[c]]
      | l :: ls => (c :: l) :: ls

/-- One iteration of the read loop: append the chunk to the buffer, split
into lines, return the complete lines (`lines` after `pop`) and the new
buffer (the popped last segment). -/
def sseStep (buffer chunk : List Char) : List (List Char) × List Char :=
  let lines := splitNl (buffer ++ chunk)
  (lines.dropLast, lines.getLastD [])

/-- The whole read loop over a list of chunks, returning the complete
lines in the order they are handled; the final buffer is discarded when
the reader reports `done`, exactly as in the source. -/
def sseRun (buffer : List Char) : List (List Char) → List (List Char)
  | [] => []
  | c :: cs => (sseStep buffer c).1 ++ sseRun (sseStep buffer c).2 cs

/-- The `"data: "` marker required at the start of a (trimmed) line. -/
def dataMarker : List Char := "data: ".data

/-- Line handling of the loop body: `trim` the line, require the
`"data: "` marker, take `slice(6).trim()` as the payload, and drop the
`"[DONE]"` sentinel.  Returns the payload handed to `JSON.parse`, or
`none` when the line is ignored. -/
def payloadOfLine (l : List Char) : Option (List Char) :=
  let t := jsTrimL l
  if startsWithL dataMarker t then
    let d := jsTrimL (t.drop 6)
    if d = "[DONE]".data then none else some d
  else none

/-- The payloads that reach `JSON.parse` for a given chunk sequence. -/
def ssePayloads (chunks : List (List Char)) : List (List Char) :=
  (sseRun [] chunks).filterMap payloadOfLine

/-- The events delivered to `onEvent`, for an arbitrary JSON parser
`jparse` (payloads on which `jparse` fails are skipped and the loop
continues). -/
def sseDelivered {ε : Type} (jparse : List Char → Option ε)
    (chunks : List (List Char)) : List ε :=
  (ssePayloads chunks).filterMap jparse

/-- Proof-device characterization of one splitting pass: the complete
(newline-terminated) lines of a stream paired with the trailing remainder
after the last newline.  Related to `sseStep` by `sseStep_eq` below. -/
def linesAndRest : List Char → List (List Char) × List Char
  | [] => ([], [])
  | c :: cs =>
    if c = '\n' then
      ([] :: (linesAndRest cs).1, (linesAndRest cs).2)
    else
      match linesAndRest cs with
      | ([], r2) => ([], c :: r2)
      | (l :: ls, r2) => ((c :: l) :: ls, r2)

/-! ## Helper lemmas -/

/-- Mapping with an index-equality guard whose target index lies beyond the
list leaves the list unchanged. -/
theorem mapIdx_if_ge {α : Type} (f : α → α) (l : List α) (t : ℕ) (h : l.length ≤ t) :
    (l.mapIdx fun i a => if i = t then f a else a) = l := by
  apply List.ext_get
  · simp
  · intro i h1 h2
    rw [List.get_mapIdx l _ i h2]
    have hne : i ≠ t := by omega
    simp [hne]

/-- The `mapIdx`-with-last-index pattern used by the chat store equals
"drop the last element, then re-append its image under `f`". -/
theorem mapIdx_updateLast {α : Type} (f : α → α) (ms : List α) :
    (ms.mapIdx fun i a => if i = ms.length - 1 then f a else a)
      = ms.dropLast ++ ((ms.getLast?).map f).toList := by
  rcases List.eq_nil_or_concat ms with h | ⟨l, e, h⟩
  · subst h; simp
  · subst h
    simp only [List.concat_eq_append]
    rw [List.mapIdx_append_one]
    simp only [show (l ++ [e]).length - 1 = l.length by simp]
    rw [mapIdx_if_ge f l l.length (le_refl _)]
    simp [List.getLast?_concat]

/-- `updateLastMessage` on a state whose message list ends in `m`. -/
theorem updateLastMessage_last (c : String) (s : ChatState) (base : List Message)
    (m : Message) (h : s.messages = base ++ [m]) :
    updateLastMessage c s = { s with messages := base ++ [{ m with content := c }] } := by
  obtain ⟨cc, ms, st⟩ := s
  simp only at h
  subst h
  simp [updateLastMessage, mapIdx_updateLast, List.getLast?_concat]
  exact mapIdx_if_ge _ base base.length (le_refl _)

/-- `addFunctionCallToLastMessage` on a state whose message list ends in `m`. -/
theorem addFunctionCall_last (n : String) (a : JsonValue) (s : ChatState)
    (base : List Message) (m : Message) (h : s.messages = base ++ [m]) :
    addFunctionCallToLastMessage n a s
      = { s with messages := base ++
          [{ m with function_calls := some (m.function_calls.getD [] ++ [⟨n, a⟩]) }] } := by
  obtain ⟨cc, ms, st⟩ := s
  simp only at h
  subst h
  simp [addFunctionCallToLastMessage, mapIdx_updateLast, List.getLast?_concat]
  exact mapIdx_if_ge _ base base.length (le_refl _)

/-! ## Claims -/

/-- C1: `checkTaskStatus` maps `"completed"` to `done`, `"failed"` to
`failed`, `"pending"` to `pending`, and every other backend status string
(including `"processing"` and any unrecognized or corrupt value) to
`processing`. -/
theorem task_status_mapping_default_processing :
    checkTaskStatus "completed" = DisplayStatus.done
    ∧ checkTaskStatus "failed" = DisplayStatus.failed
    ∧ checkTaskStatus "pending" = DisplayStatus.pending
    ∧ ∀ s : String, s ≠ "completed" → s ≠ "failed" → s ≠ "pending" →
        checkTaskStatus s = DisplayStatus.processing := by
  refine ⟨rfl, rfl, rfl, ?_⟩
  intro s h1 h2 h3
  simp [checkTaskStatus, h1, h2, h3]

/-- Witness for C1: a corrupt status string is reported as `processing`. -/
theorem task_status_mapping_witness :
    checkTaskStatus "garbled-status" = DisplayStatus.processing :=
  task_status_mapping_default_processing.2.2.2 "garbled-status"
    (by decide) (by decide) (by decide)

/-- Counterexample to C2 as stated: the status `"unknown"` is non-terminal
(neither `"completed"` nor `"failed"`), yet `refetchInterval` returns
`false` (`none`) rather than the claimed 2000 ms interval. -/
theorem poll_interval_claim_counterexample :
    refetchInterval (some ⟨"t1", "unknown", none⟩) = none
    ∧ ("unknown" : String) ≠ "completed"
    ∧ ("unknown" : String) ≠ "failed" := by
  refine ⟨rfl, by decide, by decide⟩

/-- C2 (amended): `refetchInterval` returns the 2000 ms interval exactly
when the fetched status is `"pending"` or `"processing"`; it returns
`false` when no data has been fetched, when the status is terminal
(`"completed"`/`"failed"`), and for every other (unknown) status — in
particular, at a terminal status every invocation stops polling. -/
theorem poll_interval_iff_pending_or_processing (d : TaskStatus) :
    refetchInterval none = none
    ∧ (refetchInterval (some d) = some 2000 ↔
        (d.status = "pending" ∨ d.status = "processing"))
    ∧ ((d.status = "completed" ∨ d.status = "failed") → refetchInterval (some d) = none)
    ∧ (refetchInterval (some d) = some 2000 ∨ refetchInterval (some d) = none) := by
  by_cases h1 : d.status = "completed"
  · refine ⟨rfl, ?_, fun _ => ?_, ?_⟩ <;> simp [refetchInterval, h1]
  · by_cases h2 : d.status = "failed"
    · refine ⟨rfl, ?_, fun _ => ?_, ?_⟩ <;> simp [refetchInterval, h1, h2]
    · by_cases h3 : d.status = "pending"
      · refine ⟨rfl, ?_, fun h => ?_, ?_⟩ <;> simp_all [refetchInterval]
      · by_cases h4 : d.status = "processing"
        · refine ⟨rfl, ?_, fun h => ?_, ?_⟩ <;> simp_all [refetchInterval]
        · refine ⟨rfl, ?_, fun _ => ?_, ?_⟩ <;> simp [refetchInterval, h1, h2, h3, h4]

/-- Witness for C2 (amended): at a concrete pending task the interval is
2000 ms, and at a concrete completed task polling stops. -/
theorem poll_interval_witness :
    refetchInterval (some ⟨"t1", "pending", none⟩) = some 2000
    ∧ refetchInterval (some ⟨"t2", "completed", none⟩) = none :=
  ⟨(poll_interval_iff_pending_or_processing ⟨"t1", "pending", none⟩).2.1.mpr
      (Or.inl rfl),
   (poll_interval_iff_pending_or_processing ⟨"t2", "completed", none⟩).2.2.1
      (Or.inl rfl)⟩

/-- C7: the chat message store is append-only up to the last element:
`addMessage` appends at the end (length grows by one, prefix untouched);
`updateLastMessage` and `addFunctionCallToLastMessage` rewrite only the
last message — the former replacing its `content`, the latter appending
one entry to its `function_calls` — leaving every other message, the
length, and the order unchanged. -/
theorem chat_store_append_only (s : ChatState) (msg : Message) (c : String)
    (n : String) (a : JsonValue) :
    (addMessage msg s).messages = s.messages ++ [msg]
    ∧ (addMessage msg s).messages.length = s.messages.length + 1
    ∧ (updateLastMessage c s).messages
        = s.messages.dropLast
          ++ ((s.messages.getLast?).map fun m => { m with content := c }).toList
    ∧ (updateLastMessage c s).messages.length = s.messages.length
    ∧ (addFunctionCallToLastMessage n a s).messages
        = s.messages.dropLast
          ++ ((s.messages.getLast?).map (fun m => { m with function_calls := some (m.function_calls.getD [] ++ [⟨n, a⟩]) })).toList
    ∧ (addFunctionCallToLastMessage n a s).messages.length = s.messages.length := by
  refine ⟨rfl, by simp [addMessage], mapIdx_updateLast _ _, ?_, mapIdx_updateLast _ _, ?_⟩
  · rcases List.eq_nil_or_concat s.messages with h | ⟨l, e, h⟩ <;>
      simp [updateLastMessage, mapIdx_updateLast, h, List.getLast?_concat]
  · rcases List.eq_nil_or_concat s.messages with h | ⟨l, e, h⟩ <;>
      simp [addFunctionCallToLastMessage, mapIdx_updateLast, h, List.getLast?_concat]

/-- C10: `setCurrentConversation` resets the displayed history: for every
store state and argument it sets the message list to `[]` (so no message
from a previously selected conversation is retained) while recording the
selected conversation. -/
theorem select_conversation_clears_messages (c : Option Conversation) (s : ChatState) :
    (setCurrentConversation c s).messages = []
    ∧ (setCurrentConversation c s).currentConversation = c
    ∧ (setCurrentConversation c s).isStreaming = s.isStreaming :=
  ⟨rfl, rfl, rfl⟩

/-- Unfolding one step of event processing. -/
theorem processEvents_cons (e : ChatEvent) (es : List ChatEvent) (ctx : StreamCtx) :
    processEvents (e :: es) ctx = processEvents es (onEvent e ctx) := rfl

/-- Invariant of `onEvent` over a run of `"text"` events: starting from a
state whose last message's content equals the accumulator, the accumulator
and the last message's content both grow by the concatenation of the
(defaulted) deltas. -/
theorem processTexts_aux (os : List (Option String)) :
    ∀ (cc : Option Conversation) (st : Bool) (base : List Message) (m : Message)
      (acc : String), m.content = acc →
      processEvents (os.map textEvent) ⟨acc, ⟨cc, base ++ [m], st⟩⟩
        = ⟨acc ++ concatAll (os.map (fun o => o.getD "")),
           ⟨cc, base ++ [{ m with content := acc ++ concatAll (os.map (fun o => o.getD "")) }],
            st⟩⟩ := by
  induction os with
  | nil =>
    intro cc st base m acc h
    subst h
    simp [processEvents, concatAll]
  | cons o os ih =>
    intro cc st base m acc h
    cases o with
    | none =>
      rw [List.map_cons, processEvents_cons,
        show onEvent (textEvent none) ⟨acc, ⟨cc, base ++ [m], st⟩⟩
          = ⟨acc, ⟨cc, base ++ [m], st⟩⟩ from rfl,
        ih cc st base m acc h]
      simp [concatAll]
    | some c =>
      by_cases hc : c = ""
      · subst hc
        rw [List.map_cons, processEvents_cons,
          show onEvent (textEvent (some "")) ⟨acc, ⟨cc, base ++ [m], st⟩⟩
            = ⟨acc, ⟨cc, base ++ [m], st⟩⟩ from rfl,
          ih cc st base m acc h]
        simp [concatAll]
      · rw [List.map_cons, processEvents_cons]
        have he : onEvent (textEvent (some c)) ⟨acc, ⟨cc, base ++ [m], st⟩⟩
            = ⟨acc ++ c, updateLastMessage (acc ++ c) ⟨cc, base ++ [m], st⟩⟩ := by
          simp [onEvent, textEvent, hc]
        rw [he, updateLastMessage_last (acc ++ c) _ base m rfl,
          ih cc st base { m with content := acc ++ c } (acc ++ c) rfl]
        simp [concatAll, String.append_assoc]

/-- C3: text deltas accumulate in order: processing a sequence of `"text"`
events with optional contents on the freshly added empty in-flight
assistant message leaves its content equal to the concatenation of the
deltas (absent deltas contributing nothing), and a `"text"` event with
absent or empty content leaves the context unchanged. -/
theorem chat_text_deltas_accumulate (os : List (Option String)) (cc : Option Conversation)
    (st : Bool) (ms : List Message) (m : Message) (h : m.content = "") :
    processEvents (os.map textEvent) ⟨"", addMessage m ⟨cc, ms, st⟩⟩
      = ⟨concatAll (os.map (fun o => o.getD "")),
         ⟨cc, ms ++ [{ m with content := concatAll (os.map (fun o => o.getD "")) }], st⟩⟩
    ∧ ∀ ctx : StreamCtx,
        onEvent (textEvent none) ctx = ctx ∧ onEvent (textEvent (some "")) ctx = ctx := by
  constructor
  · have haux := processTexts_aux os cc st ms m "" h
    simpa [addMessage] using haux
  · intro ctx
    exact ⟨rfl, rfl⟩

/-- Witness for C3: the deltas `"Hel"`, absent, `""`, `"lo"` leave the
in-flight assistant message with content `"Hello"`. -/
theorem chat_text_deltas_witness :
    processEvents ([some "Hel", none, some "", some "lo"].map textEvent)
        ⟨"", addMessage ⟨1, "assistant", "", "t0", none⟩ ⟨none, [], true⟩⟩
      = ⟨"Hello", ⟨none, [⟨1, "assistant", "Hello", "t0", none⟩], true⟩⟩ := by
  have h := (chat_text_deltas_accumulate [some "Hel", none, some "", some "lo"] none true []
    ⟨1, "assistant", "", "t0", none⟩ rfl).1
  exact h.trans (by decide)

/-- Counterexample to C4 as stated: an event whose type is the spec's
`"tool_invocation"`, carrying a name and args, matches no case of the
handler's `switch`, so nothing is recorded — the context is returned
unchanged.  (The code records invocations for events of type
`"function_call"`.) -/
theorem tool_invocation_event_counterexample :
    onEvent ⟨"tool_invocation", some "semantic_search", some "q1", none, none⟩
        ⟨"", ⟨none, [⟨1, "assistant", "", "t0", none⟩], true⟩⟩
      = ⟨"", ⟨none, [⟨1, "assistant", "", "t0", none⟩], true⟩⟩ := by decide

/-- C4 (amended): for every chat stream event whose type is
`"function_call"` — the event type the code actually emits and handles,
the spec's name for it being `tool_invocation` — carrying a nonempty name
and args, the handler records that invocation (name plus args) at the end
of the in-flight assistant message's `function_calls` list, touching
nothing else. -/
theorem function_call_event_records_invocation (ctx : StreamCtx) (base : List Message)
    (m : Message) (n : String) (a : JsonValue) (hn : n ≠ "")
    (h : ctx.state.messages = base ++ [m]) :
    onEvent ⟨"function_call", some n, some a, none, none⟩ ctx
      = { ctx with state := { ctx.state with messages := base ++
            [{ m with function_calls := some (m.function_calls.getD [] ++ [⟨n, a⟩]) }] } } := by
  have he : onEvent ⟨"function_call", some n, some a, none, none⟩ ctx
      = { ctx with state := addFunctionCallToLastMessage n a ctx.state } := by
    simp [onEvent, hn]
  rw [he, addFunctionCall_last n a ctx.state base m h]

/-- Witness for C4 (amended): a concrete `"function_call"` event appends
the invocation to the in-flight assistant message. -/
theorem function_call_event_witness :
    onEvent ⟨"function_call", some "semantic_search", some "q1", none, none⟩
        ⟨"", ⟨none, [⟨1, "assistant", "", "t0", none⟩], true⟩⟩
      = ⟨"", ⟨none, [⟨1, "assistant", "", "t0", some [⟨"semantic_search", "q1"⟩]⟩], true⟩⟩ := by
  have h := function_call_event_records_invocation
    ⟨"", ⟨none, [⟨1, "assistant", "", "t0", none⟩], true⟩⟩ [] ⟨1, "assistant", "", "t0", none⟩
    "semantic_search" "q1" (by decide) rfl
  exact h.trans (by decide)

/-- Counterexample to C5 as stated: (a) on an `"error"` event whose
`message` field is present but empty, the handler writes the generic text,
not the event's (empty) message field; (b) after an `"error"` event, a
later `"text"` delta in the same send is still appended — it overwrites
the error text, so text deltas are not prevented after the error. -/
theorem chat_error_claim_counterexample :
    (onEvent ⟨"error", none, none, none, some ""⟩
        ⟨"", ⟨none, [⟨1, "assistant", "", "t0", none⟩], true⟩⟩).state.messages
      = [⟨1, "assistant", "Sorry, I encountered an error. Please try again.", "t0", none⟩]
    ∧ processEvents [⟨"error", none, none, none, none⟩, textEvent (some "x")]
        ⟨"", ⟨none, [⟨1, "assistant", "", "t0", none⟩], true⟩⟩
      = ⟨"x", ⟨none, [⟨1, "assistant", "x", "t0", none⟩], false⟩⟩ :=
  ⟨by decide, by decide⟩

/-- C5 (amended): on an `"error"` event the handler sets `isStreaming` to
false and replaces the in-flight assistant message's content with the
event's message when that is a nonempty string and with the generic text
`"Sorry, I encountered an error. Please try again."` when the message is
absent or empty; an exception from the send-message request likewise
writes the generic text into the last message and stops streaming.  The
handler itself does not prevent later `"text"` events of the same send
from appending further deltas. -/
theorem chat_error_event_behavior (ctx : StreamCtx) (base : List Message) (m : Message)
    (msg : Option String) (s : ChatState) (h : ctx.state.messages = base ++ [m]) :
    ((onEvent ⟨"error", none, none, none, msg⟩ ctx).state.isStreaming = false
      ∧ (onEvent ⟨"error", none, none, none, msg⟩ ctx).state.messages
          = base ++ [{ m with content := jsOrElse msg "Sorry, I encountered an error. Please try again." }]
      ∧ (onEvent ⟨"error", none, none, none, msg⟩ ctx).fullContent = ctx.fullContent)
    ∧ ((sendMessageCatch s).isStreaming = false
      ∧ (sendMessageCatch s).messages
          = s.messages.dropLast
            ++ ((s.messages.getLast?).map (fun mm => { mm with content := "Sorry, I encountered an error. Please try again." })).toList) := by
  have he : onEvent ⟨"error", none, none, none, msg⟩ ctx
      = { ctx with state := setStreaming false (updateLastMessage (jsOrElse msg "Sorry, I encountered an error. Please try again.") ctx.state) } := by
    simp [onEvent]
  constructor
  · rw [he, updateLastMessage_last _ ctx.state base m h]
    exact ⟨rfl, rfl, rfl⟩
  · exact ⟨rfl, mapIdx_updateLast _ _⟩

/-- Witness for C5 (amended): a concrete error event with message
`"boom"` replaces the content and stops streaming; the catch branch stops
streaming. -/
theorem chat_error_event_witness :
    (onEvent ⟨"error", none, none, none, some "boom"⟩
        ⟨"ab", ⟨none, [⟨1, "assistant", "ab", "t0", none⟩], true⟩⟩).state.messages
      = [⟨1, "assistant", "boom", "t0", none⟩]
    ∧ (sendMessageCatch ⟨none, [⟨1, "assistant", "ab", "t0", none⟩], true⟩).isStreaming
        = false := by
  have h := chat_error_event_behavior
    ⟨"ab", ⟨none, [⟨1, "assistant", "ab", "t0", none⟩], true⟩⟩ []
    ⟨1, "assistant", "ab", "t0", none⟩ (some "boom")
    ⟨none, [⟨1, "assistant", "ab", "t0", none⟩], true⟩ rfl
  exact ⟨h.1.2.1.trans (by decide), h.2.1⟩

/-- C6: whenever `isStreaming` is true, or the input is empty or
whitespace-only, or no conversation is selected, `Chat.sendMessage`
returns immediately: no request parameters are produced and the state is
untouched (result `none`). -/
theorem send_message_guard (input : String) (now : Int) (iso : String) (s : ChatState)
    (h : s.isStreaming = true ∨ jsTrim input = "" ∨ s.currentConversation = none) :
    sendMessage input now iso s = none := by
  rcases h with h | h | h
  · unfold sendMessage
    split
    · rfl
    · rcases hc : s.currentConversation with _ | conv
      · rfl
      · simp [h]
  · simp [sendMessage, h]
  · simp [sendMessage, h]

/-- Witness for C6: a send while a stream is already in flight does
nothing. -/
theorem send_message_guard_witness :
    sendMessage "hello" 0 "t0" ⟨some ⟨"c1", none, "", none⟩, [], true⟩ = none :=
  send_message_guard "hello" 0 "t0" ⟨some ⟨"c1", none, "", none⟩, [], true⟩ (Or.inl rfl)

/-- C9: `api.request` returns normally exactly when the response status is
ok (200..299); on status 401 it clears the stored auth token (`logout`)
and throws `ApiError(401, "Unauthorized")`; on any other non-ok status it
throws an `ApiError` carrying that status and the body's `detail` field
when that is a nonempty string, the fallback `"An error occurred"`
otherwise (also when the body fails to parse). -/
theorem api_request_behavior (auth : AuthState) (resp : HttpResponse) :
    ((∃ r, (request auth resp).2 = Except.ok r) ↔ respOk resp.status = true)
    ∧ (resp.status = 401 →
        request auth resp = (logout auth, Except.error ⟨401, "Unauthorized"⟩))
    ∧ (respOk resp.status = false → resp.status ≠ 401 →
        request auth resp
          = (auth, Except.error ⟨resp.status, jsOrElse resp.detail "An error occurred"⟩))
    ∧ (respOk resp.status = true → request auth resp = (auth, Except.ok resp)) := by
  by_cases h1 : resp.status = 401
  · have hok : respOk resp.status = false := by rw [h1]; decide
    have hreq : request auth resp = (logout auth, Except.error ⟨401, "Unauthorized"⟩) := by
      simp [request, h1]
    refine ⟨?_, fun _ => hreq, fun _ hne => absurd h1 hne, fun h2 => ?_⟩
    · rw [hreq, hok]
      simp
    · rw [hok] at h2
      cases h2
  · by_cases h2 : respOk resp.status = true
    · have hreq : request auth resp = (auth, Except.ok resp) := by
        simp [request, h1, h2]
      refine ⟨?_, fun hc => absurd hc h1, fun hc _ => ?_, fun _ => hreq⟩
      · rw [hreq, h2]
        simp
      · rw [hc] at h2
        cases h2
    · have h2' : respOk resp.status = false := by
        cases hr : respOk resp.status
        · rfl
        · exact absurd hr h2
      have hreq : request auth resp
          = (auth, Except.error ⟨resp.status, jsOrElse resp.detail "An error occurred"⟩) := by
        simp [request, h1, h2']
      refine ⟨?_, fun hc => absurd hc h1, fun _ _ => hreq, fun hc => absurd hc h2⟩
      · rw [hreq, h2']
        simp

/-- Witness for C9: a 401 clears the token; a 404 with unparseable body
carries the fallback message; a 204 returns normally. -/
theorem api_request_witness :
    request ⟨some "tok", true⟩ ⟨401, none⟩
      = (⟨none, false⟩, Except.error ⟨401, "Unauthorized"⟩)
    ∧ request ⟨some "tok", true⟩ ⟨404, none⟩
      = (⟨some "tok", true⟩, Except.error ⟨404, "An error occurred"⟩)
    ∧ request ⟨some "tok", true⟩ ⟨204, some "d"⟩
      = (⟨some "tok", true⟩, Except.ok ⟨204, some "d"⟩) := by
  have h1 := (api_request_behavior ⟨some "tok", true⟩ ⟨401, none⟩).2.1 rfl
  have h2 := (api_request_behavior ⟨some "tok", true⟩ ⟨404, none⟩).2.2.1 (by decide) (by decide)
  have h3 := (api_request_behavior ⟨some "tok", true⟩ ⟨204, some "d"⟩).2.2.2 (by decide)
  exact ⟨h1, h2, h3⟩

/-- JS `split` decomposes as complete lines plus the trailing segment. -/
theorem splitNl_eq_linesAndRest (s : List Char) :
    splitNl s = (linesAndRest s).1 ++ [(linesAndRest s).2] := by
  induction s with
  | nil => rfl
  | cons c cs ih =>
    by_cases h : c = '\n'
    · simp [splitNl, linesAndRest, h, ih]
    · cases hr : linesAndRest cs with
      | mk r1 r2 =>
        cases r1 with
        | nil =>
          rw [hr] at ih
          simp [splitNl, linesAndRest, h, ih, hr]
        | cons l ls =>
          rw [hr] at ih
          simp [splitNl, linesAndRest, h, ih, hr]

/-- The trailing remainder contains no newline. -/
theorem linesAndRest_noNl (s : List Char) : '\n' ∉ (linesAndRest s).2 := by
  induction s with
  | nil => simp [linesAndRest]
  | cons c cs ih =>
    by_cases h : c = '\n'
    · simpa [linesAndRest, h] using ih
    · cases hr : linesAndRest cs with
      | mk r1 r2 =>
        rw [hr] at ih
        cases r1 with
        | nil =>
          simp only [linesAndRest, if_neg h, hr]
          simp only [List.mem_cons, not_or]
          exact ⟨fun hc => h hc.symm, ih⟩
        | cons l ls => simpa [linesAndRest, h, hr] using ih

/-- A newline-free stream has no complete line and is kept whole. -/
theorem linesAndRest_of_noNl (s : List Char) (h : '\n' ∉ s) : linesAndRest s = ([], s) := by
  induction s with
  | nil => rfl
  | cons c cs ih =>
    simp only [List.mem_cons, not_or] at h
    have ih' := ih h.2
    have hc : ¬(c = '\n') := fun hc => h.1 hc.symm
    simp [linesAndRest, hc, ih']

/-- Splitting a concatenation: the complete lines of `a` come first, and
the remainder of `a` is prepended to `b` for the rest. -/
theorem linesAndRest_append (a b : List Char) :
    linesAndRest (a ++ b)
      = ((linesAndRest a).1 ++ (linesAndRest ((linesAndRest a).2 ++ b)).1,
         (linesAndRest ((linesAndRest a).2 ++ b)).2) := by
  induction a with
  | nil => simp [linesAndRest]
  | cons c cs ih =>
    by_cases h : c = '\n'
    · simp [linesAndRest, h, ih]
    · cases hr : linesAndRest cs with
      | mk r1 r2 =>
        rw [hr] at ih
        cases r1 with
        | nil =>
          cases hx : linesAndRest (r2 ++ b) with
          | mk x1 x2 =>
            cases x1 with
            | nil => simp [linesAndRest, h, ih, hr, hx]
            | cons l2 ls2 => simp [linesAndRest, h, ih, hr, hx]
        | cons l ls =>
          cases hx : linesAndRest (r2 ++ b) with
          | mk x1 x2 => simp [linesAndRest, h, ih, hr, hx]

/-- `sseStep` computes exactly the complete lines and the remainder. -/
theorem sseStep_eq (buf c : List Char) : sseStep buf c = linesAndRest (buf ++ c) := by
  unfold sseStep
  rw [splitNl_eq_linesAndRest]
  simp [List.getLastD_concat]

/-- Merging two adjacent chunks does not change the handled lines. -/
theorem sseRun_merge (buf c1 c2 : List Char) (cs : List (List Char)) :
    sseRun buf (c1 :: c2 :: cs) = sseRun buf ((c1 ++ c2) :: cs) := by
  show (sseStep buf c1).1 ++ ((sseStep (sseStep buf c1).2 c2).1
      ++ sseRun (sseStep (sseStep buf c1).2 c2).2 cs)
    = (sseStep buf (c1 ++ c2)).1 ++ sseRun (sseStep buf (c1 ++ c2)).2 cs
  rw [sseStep_eq buf c1, sseStep_eq _ c2, sseStep_eq buf (c1 ++ c2),
    ← List.append_assoc buf c1 c2, linesAndRest_append (buf ++ c1) c2]
  simp [List.append_assoc]

/-- A chunk sequence handles the same lines as its concatenation arriving
as one chunk, for every newline-free starting buffer. -/
theorem sseRun_join (cs : List (List Char)) :
    ∀ buf : List Char, '\n' ∉ buf → sseRun buf cs = sseRun buf [concatChunks cs] := by
  induction cs with
  | nil =>
    intro buf h
    show ([] : List (List Char)) = (sseStep buf []).1 ++ sseRun (sseStep buf []).2 []
    rw [sseStep_eq]
    simp [linesAndRest_of_noNl buf h, sseRun]
  | cons c cs ih =>
    intro buf h
    cases cs with
    | nil => simp [concatChunks]
    | cons c2 cs2 =>
      have hb : '\n' ∉ (sseStep buf c).2 := by
        rw [sseStep_eq]
        exact linesAndRest_noNl _
      calc sseRun buf (c :: c2 :: cs2)
          = (sseStep buf c).1 ++ sseRun (sseStep buf c).2 (c2 :: cs2) := rfl
        _ = (sseStep buf c).1 ++ sseRun (sseStep buf c).2 [concatChunks (c2 :: cs2)] := by
            rw [ih _ hb]
        _ = sseRun buf (c :: [concatChunks (c2 :: cs2)]) := rfl
        _ = sseRun buf [c ++ concatChunks (c2 :: cs2)] := sseRun_merge buf c _ []
        _ = sseRun buf [concatChunks (c :: c2 :: cs2)] := rfl

/-- Counterexample to C8 as stated: the single complete line
`" data: 1"` (leading whitespace) does not start with `"data: "`, yet its
payload `"1"` is parsed and delivered — the loop trims each line before
checking the marker, so "only lines that start with `data: ` are parsed"
fails on the code. -/
theorem sse_parser_claim_counterexample :
    ssePayloads [(" data: 1\n").data] = [("1").data]
    ∧ startsWithL dataMarker ((" data: 1").data) = false :=
  ⟨by decide, by decide⟩

/-- C8 (amended): the SSE parser is chunking-invariant — every splitting
of the byte stream into chunks delivers the same ordered event sequence as
the whole stream arriving in one chunk; only complete (newline-terminated)
lines are handled, so a trailing data line not followed by a newline is
never delivered; only lines whose whitespace-trimmed form starts with
`"data: "` are parsed; the `"[DONE]"` sentinel payload is never delivered;
and a payload on which JSON parsing fails is skipped while every other
line's event is still delivered in order. -/
theorem sse_parser_chunking_invariant :
    (∀ (ε : Type) (jparse : List Char → Option ε) (chunks : List (List Char)),
        sseDelivered jparse chunks = sseDelivered jparse [concatChunks chunks])
    ∧ (∀ s : List Char, sseRun [] [s] = (splitNl s).dropLast)
    ∧ (∀ l : List Char, payloadOfLine l ≠ none →
        startsWithL dataMarker (jsTrimL l) = true)
    ∧ (∀ l : List Char, payloadOfLine l ≠ some (("[DONE]").data))
    ∧ (∀ (ε : Type) (jparse : List Char → Option ε) (l p : List Char)
        (ls1 ls2 : List (List Char)), payloadOfLine l = some p → jparse p = none →
        ((ls1 ++ l :: ls2).filterMap payloadOfLine).filterMap jparse
          = (ls1.filterMap payloadOfLine).filterMap jparse
            ++ (ls2.filterMap payloadOfLine).filterMap jparse) := by
  refine ⟨?_, ?_, ?_, ?_, ?_⟩
  · intro ε jparse chunks
    unfold sseDelivered ssePayloads
    rw [sseRun_join chunks [] (by simp)]
  · intro s
    show (sseStep [] s).1 ++ sseRun (sseStep [] s).2 [] = (splitNl s).dropLast
    simp [sseStep, sseRun]
  · intro l h
    by_cases hs : startsWithL dataMarker (jsTrimL l) = true
    · exact hs
    · exact absurd (by simp [payloadOfLine, hs] : payloadOfLine l = none) h
  · intro l
    unfold payloadOfLine
    by_cases hs : startsWithL dataMarker (jsTrimL l) = true
    · by_cases hd : jsTrimL ((jsTrimL l).drop 6) = ("[DONE]").data
      · simp [hs, hd]
      · simp [hs, hd]
    · simp [hs]
  · intro ε jparse l p ls1 ls2 hl hp
    rw [List.filterMap_append, List.filterMap_cons_some hl,
      List.filterMap_append, List.filterMap_cons_none hp]

/-- Witness for C8 (amended): a concrete three-way chunking delivers the
same payloads as the concatenated stream; a concrete marked line passes
the marker check; a concrete unparseable payload is skipped while the
surrounding lines' payloads survive. -/
theorem sse_parser_witness :
    sseDelivered (fun l => some l) [("da").data, ("ta: x\nda").data, ("ta: y\n").data]
      = sseDelivered (fun l => some l)
          [concatChunks [("da").data, ("ta: x\nda").data, ("ta: y\n").data]]
    ∧ startsWithL dataMarker (jsTrimL (("data: x").data)) = true
    ∧ (([("noise").data] ++ ("data: bad").data :: [("data: y").data]).filterMap
          payloadOfLine).filterMap
            (fun p => if p = ("bad").data then (none : Option (List Char)) else some p)
      = (([("noise").data]).filterMap payloadOfLine).filterMap
            (fun p => if p = ("bad").data then (none : Option (List Char)) else some p)
        ++ (([("data: y").data]).filterMap payloadOfLine).filterMap
            (fun p => if p = ("bad").data then (none : Option (List Char)) else some p) := by
  refine ⟨sse_parser_chunking_invariant.1 (List Char) (fun l => some l) _, ?_, ?_⟩
  · exact sse_parser_chunking_invariant.2.2.1 (("data: x").data) (by decide)
  · exact sse_parser_chunking_invariant.2.2.2.2 (List Char) _ (("data: bad").data)
      (("bad").data) _ _ (by decide) (by decide)

end LifeLens
